import Mathlib

/-!
Verification development for the aiohttp protocol-layer fork.

Shallow embedding of the three source modules under scrutiny:

* `src/aiohttp/http_message.py` — `PayloadWriter`: chunked framing,
  content-length clamping, buffering/drain, finalization (`write_eof`).
* `src/aiohttp/multidict.py` — ordered multi-valued mapping: `getall`,
  `__setitem__` / `__delitem__`, and the `_ItemsView` read view.
* `src/aiohttp/web_urldispatcher.py` — resource registration and name
  validation, dynamic path-template compilation, dispatcher resolution,
  and the static-file handler `StaticRoute.handle`.

Byte strings are modelled as `List Nat` (one entry per byte), stateful
Python objects as Lean structures with explicit state passing, raised
exceptions as error results, and a coroutine that suspends forever
(awaiting a drain waiter with no transport attached) as `Option.none`.
-/

set_option autoImplicit false

namespace AioSpec

/-! ## Bytes and small helpers -/

/-- CRLF byte pair, `b"\r\n"`. -/
def crlf : List Nat := [13, 10]

/-- ASCII bytes of the lowercase hex rendering of `n`, as produced by
Python `'%x' % n` (no padding, no prefix, lowercase digits). -/
def hexBytes (n : Nat) : List Nat :=
  (Nat.toDigits 16 n).map Char.toNat

/-- ASCII bytes of a string literal; used to write concrete byte-string
inputs the way the Python tests write `b"..."`. -/
def strBytes (s : String) : List Nat :=
  s.toList.map Char.toNat

/-- Python `str.startswith`, computed on the character lists. -/
def strStartsWith (s pre : String) : Bool :=
  pre.toList.isPrefixOf s.toList

/-- Split a character list at every separator character recognized by
`p`, keeping empty pieces — the behaviour shared by Python `str.split`
with an explicit separator and by `re.split` on a character class. -/
def splitCharsAux (p : Char → Bool) : List Char → List Char → List (List Char)
  | [], acc => [acc.reverse]
  | c :: rest, acc =>
    if p c then acc.reverse :: splitCharsAux p rest []
    else splitCharsAux p rest (c :: acc)

/-- Split entry point: `splitChars p cs` lists the runs of `cs` between
separators, with empty runs preserved. -/
def splitChars (p : Char → Bool) (cs : List Char) : List (List Char) :=
  splitCharsAux p cs []

/-! ## PayloadWriter (`src/aiohttp/http_message.py`)

The embedding covers the compression-free writer (`self._compress is
None`): every claim about the writer stipulates "no compression", and the
compressor itself is the external `zlib` library.  The connection
(`self._stream`) is modelled by the `released` flag (set by
`self._stream.release()`); the transport by the `transportAttached` flag
together with `wire`, the concatenation of all byte strings passed to
`transport.write` in call order.  `buffer` is the byte content of the
Python list `self._buffer` joined in order (only non-empty chunks are
ever appended to that list, so the flattening is faithful, including the
`if self._buffer:` emptiness tests). -/

structure PayloadWriter where
  /-- `self.length`: remaining content-length budget, `None` if unbounded. -/
  length : Option Nat
  /-- `self.chunked`. -/
  chunked : Bool
  /-- `self.buffer_size`. -/
  buffer_size : Nat
  /-- `self.output_size`. -/
  output_size : Nat
  /-- `self._eof`. -/
  eof : Bool
  /-- Joined bytes of `self._buffer`. -/
  buffer : List Nat
  /-- Whether `self._transport` is not `None`. -/
  transportAttached : Bool
  /-- All bytes handed to `self._transport.write`, in order. -/
  wire : List Nat
  /-- Whether `self._stream.release()` has been called. -/
  released : Bool
deriving DecidableEq

/-- `PayloadWriter.__init__`: fresh counters, no budget, not chunked, not
finalized, empty buffer.  The transport is attached iff the stream had an
available transport (`self._stream.available`); otherwise the writer is
queued via `acquire` and starts with no transport. -/
def mkWriter (attached : Bool) : PayloadWriter :=
  { length := none, chunked := false, buffer_size := 0, output_size := 0,
    eof := false, buffer := [], transportAttached := attached,
    wire := [], released := false }

/-- `PayloadWriter.enable_chunking`. -/
def enableChunking (w : PayloadWriter) : PayloadWriter :=
  { w with chunked := true }

/-- `PayloadWriter.buffer_data`: append a chunk to the internal buffer,
skipping empty chunks, bumping both size counters. -/
def bufferData (w : PayloadWriter) (chunk : List Nat) : PayloadWriter :=
  if chunk = [] then w
  else
    { w with buffer_size := w.buffer_size + chunk.length,
             output_size := w.output_size + chunk.length,
             buffer := w.buffer ++ chunk }

/-- `PayloadWriter._write`: bump the counters, then either hand the bytes
(prefixed by any buffered bytes) to the transport, or append to the
buffer when no transport is attached. -/
def writeRaw (w : PayloadWriter) (chunk : List Nat) : PayloadWriter :=
  let w' := { w with buffer_size := w.buffer_size + chunk.length,
                     output_size := w.output_size + chunk.length }
  if w'.transportAttached then
    if w'.buffer = [] then { w' with wire := w'.wire ++ chunk }
    else { w' with wire := w'.wire ++ w'.buffer ++ chunk, buffer := [] }
  else
    { w' with buffer := w'.buffer ++ chunk }

/-- Chunked-transfer frame for one non-empty payload:
`<hex-size>\r\n<payload>\r\n`. -/
def chunkFrame (payload : List Nat) : List Nat :=
  hexBytes payload.length ++ crlf ++ payload ++ crlf

/-- `PayloadWriter.write` (per-call byte limit `LIMIT = 64 * 1024`), for a
writer without compression.  Applies the content-length clamp, then chunk
framing, then `_write`; when the accumulated buffer size exceeds the
limit and draining is allowed, resets `buffer_size` and returns the
not-yet-executed `self.drain()` coroutine to the caller — the returned
flag records whether such a pending drain future (rather than `noop()`)
was returned. -/
def pwWrite (w : PayloadWriter) (chunk : List Nat) (drainAllowed : Bool) :
    PayloadWriter × Bool :=
  let clamped : PayloadWriter × List Nat :=
    match w.length with
    | none => (w, chunk)
    | some l =>
      if chunk.length ≤ l then
        ({ w with length := some (l - chunk.length) }, chunk)
      else
        ({ w with length := some 0 }, chunk.take l)
  let w' := clamped.1
  let chunk' := clamped.2
  if chunk' = [] then (w', false)
  else
    let framed := if w'.chunked then chunkFrame chunk' else chunk'
    let w'' := writeRaw w' framed
    if 64 * 1024 < w''.buffer_size ∧ drainAllowed then
      ({ w'' with buffer_size := 0 }, true)
    else (w'', false)

/-- `PayloadWriter.drain`: with a transport attached, flush the buffer to
the transport (keeping the buffer contents when `last` is set, mirroring
`if not last: self._buffer.clear()`) and await the stream's own drain
(external, completes).  With no transport, the coroutine suspends on the
drain waiter: modelled as `none`. -/
def pwDrain (w : PayloadWriter) (last : Bool) : Option PayloadWriter :=
  if w.transportAttached then
    if w.buffer = [] then some w
    else some { w with wire := w.wire ++ w.buffer,
                       buffer := if last then w.buffer else [] }
  else none

/-- Terminating chunk of a chunked stream, `b"0\r\n\r\n"`. -/
def zeroTerm : List Nat := [48, 13, 10, 13, 10]

/-- `PayloadWriter.write_eof` for a writer without compression.  A second
call returns immediately (`if self._eof: return`).  Otherwise the
trailing chunk is chunk-framed (or replaced by the bare terminator when
empty), buffered, and a full drain is forced; on completion the writer is
marked finalized, the transport reference dropped and the stream
released.  `none` models the coroutine never completing because the
drain suspended with no transport attached. -/
def writeEof (w : PayloadWriter) (chunk : List Nat) : Option PayloadWriter :=
  if w.eof then some w
  else
    let chunk' :=
      if w.chunked then
        if chunk = [] then zeroTerm
        else hexBytes chunk.length ++ crlf ++ chunk ++ crlf ++ zeroTerm
      else chunk
    let w' := bufferData w chunk'
    match pwDrain w' true with
    | none => none
    | some w'' =>
      some { w'' with eof := true, transportAttached := false, released := true }

/-- Total bytes committed by the writer, in order: bytes already on the
wire followed by bytes still buffered.  Every flush moves a buffer
prefix onto the wire, so this concatenation is invariant under drains
and is the byte stream the writer has produced. -/
def pwOutput (w : PayloadWriter) : List Nat :=
  w.wire ++ w.buffer

/-! ## MultiDict (`src/aiohttp/multidict.py`)

`self._items` is a Python list of `(key, value)` pairs, modelled as
`List (K × V)`. -/

/-- Error raised by the multidict operations (`KeyError`). -/
inductive MdErr where
  | keyError
deriving DecidableEq

/-- `MultiDict.getall`: all values whose key equals `key`, in order; an
empty result returns the caller-supplied default when one was given
(`default != _marker`) and raises `KeyError` otherwise. -/
def mdGetAll {K V : Type} [DecidableEq K]
    (items : List (K × V)) (key : K) (dflt : Option (List V)) :
    Except MdErr (List V) :=
  match (items.filter (fun p => decide (p.1 = key))).map Prod.snd with
  | [] =>
    match dflt with
    | some d => .ok d
    | none => .error .keyError
  | res => .ok res

/-- `MutableMultiDictMixin.__delitem__`: scan the item list from the back
deleting every pair whose key equals `key` (which leaves exactly the
non-matching pairs, in their original order); raise `KeyError` when no
pair matched. -/
def mdDelItem {K V : Type} [DecidableEq K]
    (items : List (K × V)) (key : K) : Except MdErr (List (K × V)) :=
  if items.any (fun p => decide (p.1 = key)) then
    .ok (items.filter (fun p => decide ¬(p.1 = key)))
  else .error .keyError

/-- `MutableMultiDictMixin.__setitem__`: `del self[key]` with `KeyError`
swallowed, then append the new pair at the end. -/
def mdSetItem {K V : Type} [DecidableEq K]
    (items : List (K × V)) (key : K) (v : V) : List (K × V) :=
  (match mdDelItem items key with
   | .ok rest => rest
   | .error _ => items) ++ [(key, v)]

/-- `MultiDict.__init__` via `_fill` on a pair sequence: the item list is
exactly the given pairs, in order. -/
def mdOfPairs {K V : Type} (pairs : List (K × V)) : List (K × V) :=
  pairs

/-- `_ItemsView.__init__` with `getall=True`: the view iterates the item
list itself. -/
def itemsViewAll {K V : Type} (items : List (K × V)) : List (K × V) :=
  items

/-- `_ItemsView.__init__` with `getall=False`: `self._keys` becomes the
Python `set` of the keys, and for each key in the set's (arbitrary)
iteration order the first pair with that key is kept.  The set's
iteration order is not determined by the insertion order, so it is a
parameter `keyOrder` here; the view is well-formed for any duplicate-free
enumeration of exactly the keys present. -/
def itemsViewUnique {K V : Type} [DecidableEq K]
    (keyOrder : List K) (items : List (K × V)) : List (K × V) :=
  keyOrder.filterMap (fun k => items.find? (fun p => decide (p.1 = k)))

/-! ## Dynamic path patterns (`src/aiohttp/web_urldispatcher.py`)

`UrlDispatcher.add_resource` assembles a Python regular-expression string
from the path template and compiles it anchored at both ends
(`re.compile('^' + pattern + '$')`).  The embedding represents the
assembled pattern as a token list (`MTok`): literal fragments
(`re.escape(part)` matches the fragment itself) alternating with named
capturing groups.  Every group the dispatcher emits is of the form
`X+` for a character class `X` — the default class `GOOD = [^{}/]+`, or a
user-supplied regex which the embedded engine accepts when it is such a
one-or-more class (`\d+`, `[^...]+`); user regexes outside this fragment
are rejected at compile time in the model (`AddErr.unsupportedRe`).  The
matcher below implements the Python semantics for this fragment: greedy
one-or-more repetition with backtracking, whole-string anchoring. -/

/-- Left-brace character, `chr 123`. -/
def braceL : Char := Char.ofNat 123

/-- Right-brace character, `chr 125`. -/
def braceR : Char := Char.ofNat 125

/-- Character-class regexes appearing as group bodies: the default class
`GOOD = [^{}/]+` generalized to any negated literal class, and `\d+`. -/
inductive Re where
  | plusNotIn (banned : List Char)
  | plusDigit
deriving DecidableEq

/-- Single-character acceptance for a group class. -/
def reChar : Re → Char → Bool
  | .plusNotIn banned, c => decide (c ∉ banned)
  | .plusDigit, c => c.isDigit

/-- Tokens of an assembled pattern: escaped literal runs and named
capturing groups `(?P<var>X+)`. -/
inductive MTok where
  | lit (cs : List Char)
  | grp (var : String) (r : Re)
deriving DecidableEq

/-- Length of the longest prefix of `s` accepted by the class `r` — the
greedy first attempt of `X+`. -/
def leadCount (r : Re) : List Char → Nat
  | [] => 0
  | c :: rest => if reChar r c then leadCount r rest + 1 else 0

/-- Backtracking helper for a group `(?P<v>X+)`: try capturing exactly
`k` characters, longest first, matching the rest of the pattern (the
continuation `f`) against the remaining input; back off one character at
a time down to one. -/
def grpTry (f : List Char → Option (List (String × List Char)))
    (v : String) (s : List Char) : Nat → Option (List (String × List Char))
  | 0 => none
  | k + 1 =>
    match f (s.drop (k + 1)) with
    | some caps => some ((v, s.take (k + 1)) :: caps)
    | none => grpTry f v s k

/-- Anchored matching of a token list against the whole input, with the
Python backtracking semantics: a literal must be a prefix, a group
`(?P<v>X+)` greedily consumes as many class characters as possible
(starting from `leadCount`) and backtracks through `grpTry`.  Returns
the captured group substrings in pattern order, or `none` (pattern does
not match). -/
def matchToks : List MTok → List Char → Option (List (String × List Char))
  | [] => fun s => if s.isEmpty then some [] else none
  | .lit cs :: rest => fun s =>
    if cs.isPrefixOf s then matchToks rest (s.drop cs.length) else none
  | .grp v r :: rest => fun s => grpTry (matchToks rest) v s (leadCount r s)

/-- Numeric value of an ASCII hex digit. -/
def hexVal? (c : Char) : Option Nat :=
  if c.isDigit then some (c.toNat - 48)
  else if 97 ≤ c.toNat ∧ c.toNat ≤ 102 then some (c.toNat - 87)
  else if 65 ≤ c.toNat ∧ c.toNat ≤ 70 then some (c.toNat - 55)
  else none

/-- Percent-decoding pass of `urllib.parse.unquote`: each `%XX` escape is
replaced by the character with that code, malformed escapes are kept
verbatim.  (The Python function additionally reassembles multi-byte
UTF-8 sequences; the embedding covers the single-byte codes the claims
exercise.) -/
def percentDecodeAux : List Char → List Char
  | [] => []
  | '%' :: a :: b :: rest =>
    match hexVal? a, hexVal? b with
    | some ha, some hb => Char.ofNat (16 * ha + hb) :: percentDecodeAux rest
    | _, _ => '%' :: percentDecodeAux (a :: b :: rest)
  | c :: rest => c :: percentDecodeAux rest

/-- Percent-decoding, packaged on strings. -/
def percentDecode (cs : List Char) : String :=
  String.mk (percentDecodeAux cs)

/-- DynamicResource.match: run the anchored pattern; on success return
the group dictionary with every captured value percent-decoded
(`{key: unquote(value) for key, value in match.groupdict().items()}`). -/
def dynMatchGroups (toks : List MTok) (path : String) :
    Option (List (String × String)) :=
  (matchToks toks path.toList).map
    (List.map (fun p => (p.1, percentDecode p.2)))

/-! ## Template compilation (`UrlDispatcher.add_resource`) -/

/-- Parts of a path template, as produced by `ROUTE_RE.split`: literal
runs and `{...}` segments (the braces stripped). -/
inductive TPart where
  | lit (cs : List Char)
  | braced (inner : List Char)
deriving DecidableEq

/-- Scan for the matching close brace of a candidate `{...}` group:
returns the inner characters and the remainder after the close brace, or
`none` when another open brace or the end of input intervenes (matching
`ROUTE_RE`, which forbids a nested open brace inside a group; the
one-level nesting alternative of `ROUTE_RE` is outside the templates the
claims exercise). -/
def findGroupEnd : List Char → Option (List Char × List Char)
  | [] => none
  | c :: rest =>
    if c = braceR then some ([], rest)
    else if c = braceL then none
    else (findGroupEnd rest).map (fun p => (c :: p.1, p.2))

/-- Prepend a literal character onto a part list, merging with a leading
literal part; `ROUTE_RE.split` yields maximal literal runs, which this
reconstructs. -/
def consLit (c : Char) : List TPart → List TPart
  | .lit cs :: rest => .lit (c :: cs) :: rest
  | parts => .lit [c] :: parts

/-- Fuel-indexed body of the template split.  The fuel only bounds the
number of characters consumed: a group part jumps past its closing brace
(`rest'` from `findGroupEnd`, always shorter than the input), every
other step drops one character, so fuel `cs.length` (supplied by
`splitTemplate`) never runs out. -/
def splitTemplateFuel : Nat → List Char → List TPart
  | 0, _ => []
  | _ + 1, [] => []
  | fuel + 1, c :: rest =>
    if c = braceL then
      match findGroupEnd rest with
      | some (inner, rest') =>
        match inner with
        | d :: _ =>
          if d.isAlpha || d = '_' then
            .braced inner :: splitTemplateFuel fuel rest'
          else consLit c (splitTemplateFuel fuel rest)
        | [] => consLit c (splitTemplateFuel fuel rest)
      | none => consLit c (splitTemplateFuel fuel rest)
    else consLit c (splitTemplateFuel fuel rest)

/-- Split of a path template into literal and `{...}` parts, following
`ROUTE_RE`: an open brace starts a group when it is closed before any
further open brace and its first inner character is a letter or
underscore (`\{[_a-zA-Z][^{}]*\}`); otherwise the brace stays inside the
literal run (and will later fail the stray-brace validation). -/
def splitTemplate (cs : List Char) : List TPart :=
  splitTemplateFuel cs.length cs

/-- Variable-name check of the `DYN` and `DYN_WITH_RE` patterns:
`[a-zA-Z][_a-zA-Z0-9]*`. -/
def isVarName (cs : List Char) : Bool :=
  match cs with
  | [] => false
  | c :: rest => c.isAlpha && rest.all (fun d => d.isAlpha || d.isDigit || d = '_')

/-- Default per-segment pattern `GOOD = r'[^{}/]+'`: one or more
characters, none of which is a brace or a slash. -/
def goodClass : Re := .plusNotIn [braceL, braceR, '/']

/-- Parse a user-supplied group regex (the `re` group of `DYN_WITH_RE`)
into the embedded engine: `\d+`, or a negated literal character class
`[^...]+`.  Other regexes are valid for `re.compile` but outside the
embedded fragment, yielding `none` (surfaced as
`AddErr.unsupportedRe`). -/
def parseUserRe (cs : List Char) : Option Re :=
  if cs = ['\\', 'd', '+'] then some .plusDigit
  else if cs.length ≥ 4 ∧ cs.take 2 = ['[', '^'] ∧
      cs.drop (cs.length - 2) = [']', '+'] then
    let banned := (cs.drop 2).take (cs.length - 4)
    if banned ≠ [] ∧ banned.all
        (fun c => decide (c ∉ [']', '\\', '^', '-', '['])) then
      some (.plusNotIn banned)
    else none
  else none

/-- Split a braced segment body at the first colon, separating the
variable name from the user regex; mirrors how `DYN_WITH_RE`
(`\{([a-zA-Z][_a-zA-Z0-9]*):(.+)\}`) divides the body, the name being
unable to contain a colon. -/
def splitFirstColon : List Char → Option (List Char × List Char)
  | [] => none
  | c :: rest =>
    if c = ':' then some ([], rest)
    else (splitFirstColon rest).map (fun p => (c :: p.1, p.2))

/-- Registration-time errors of `UrlDispatcher` (all `ValueError` in the
source, distinguished here by cause). -/
inductive RegErr where
  | invalidName
  | duplicateName
deriving DecidableEq

/-- Errors of `add_resource`. -/
inductive AddErr where
  | pathNoSlash
  | invalidPath
  | unsupportedRe
  | regError (e : RegErr)
deriving DecidableEq

/-- Compilation of the split template parts into pattern tokens and the
`formatter` string, mirroring the loop body of `add_resource`: a `DYN`
segment contributes the default-class group, a `DYN_WITH_RE` segment the
user regex verbatim, any other part containing a brace raises
`ValueError` (`Invalid path`), and literal parts are escaped
(an escaped literal matches itself) and appended to the formatter. -/
def compileParts : List TPart → Except AddErr (List MTok × List Char)
  | [] => .ok ([], [])
  | .lit cs :: rest =>
    if cs.any (fun c => c = braceL || c = braceR) then .error .invalidPath
    else (compileParts rest).map (fun p => (.lit cs :: p.1, cs ++ p.2))
  | .braced inner :: rest =>
    if isVarName inner then
      (compileParts rest).map (fun p =>
        (.grp (String.mk inner) goodClass :: p.1,
         braceL :: (inner ++ braceR :: p.2)))
    else
      match splitFirstColon inner with
      | some (v, reStr) =>
        if isVarName v ∧ reStr ≠ [] then
          match parseUserRe reStr with
          | some r =>
            (compileParts rest).map (fun p =>
              (.grp (String.mk v) r :: p.1,
               braceL :: (v ++ braceR :: p.2)))
          | none => .error .unsupportedRe
        else .error .invalidPath
      | none => .error .invalidPath

/-! ## Resources and the dispatcher -/

/-- Registered resources: `PlainResource` (exact path) and
`DynamicResource` (anchored compiled pattern plus formatter).  Static
routes never reach the dispatcher's resource list in this source:
`StaticRoute.__init__` passes its *name* where `Route.__init__` expects
the resource, so `register_route`'s `isinstance(resource, Resource)`
assertion fails; the static handler is modelled separately below. -/
inductive Resource' where
  | plain (path : String) (name : Option String)
  | dynamic (toks : List MTok) (formatter : String) (name : Option String)
deriving DecidableEq

/-- Resource name accessor (`Resource.name`). -/
def resourceName : Resource' → Option String
  | .plain _ n => n
  | .dynamic _ _ n => n

/-- Resource.match: a `PlainResource` compares the stored path for string
equality; a `DynamicResource` applies the compiled pattern and
percent-decodes the captured groups. -/
def resourceMatch : Resource' → String → Option (List (String × String))
  | .plain p _, path => if p = path then some [] else none
  | .dynamic toks _ _, path => dynMatchGroups toks path

/-- Dispatcher state: the ordered resource list (`self._resources`) and
the name table (`self._named_resources`, an insertion-ordered dict
modelled as an association list). -/
structure DispState where
  resources : List Resource'
  named : List (String × Resource')
deriving DecidableEq

/-- Fresh dispatcher (`UrlDispatcher.__init__`). -/
def emptyDispatcher : DispState :=
  { resources := [], named := [] }

/-- Python keywords (`keyword.kwlist`), which route-name parts must not
be. -/
def pyKeywords : List String :=
  ["False", "None", "True", "and", "as", "assert", "break", "class",
   "continue", "def", "del", "elif", "else", "except", "finally", "for",
   "from", "global", "if", "import", "in", "is", "lambda", "nonlocal",
   "not", "or", "pass", "raise", "return", "try", "while", "with", "yield"]

/-- ASCII model of `str.isidentifier`: a leading letter or underscore
followed by letters, digits or underscores (the claims use ASCII names;
the Python predicate additionally admits Unicode identifier
characters). -/
def isPyIdentifier (s : String) : Bool :=
  match s.toList with
  | [] => false
  | c :: rest =>
    (c.isAlpha || c = '_') &&
      rest.all (fun d => d.isAlpha || d.isDigit || d = '_')

/-- Split of a route name on `NAME_SPLIT_RE = [.:-]`, keeping empty
parts as `re.split` does. -/
def nameParts (name : String) : List String :=
  (splitChars (fun c => c = '.' || c = ':' || c = '-') name.toList).map
    String.mk

/-- Validity of one name part: a Python identifier that is not a
keyword. -/
def validNamePart (part : String) : Bool :=
  isPyIdentifier part && !(pyKeywords.contains part)

/-- UrlDispatcher._reg_resource: with a name present, first validate
every `[.:-]`-separated part (raising `ValueError` — `invalidName` —
before any mutation), then reject a duplicate name (again before any
mutation), and only then extend the name table and the resource list.
The pre-call state is returned alongside the error, making the
all-or-nothing behaviour explicit. -/
def regResource (st : DispState) (r : Resource') :
    DispState × Option RegErr :=
  match resourceName r with
  | none => ({ st with resources := st.resources ++ [r] }, none)
  | some name =>
    if (nameParts name).all validNamePart then
      if st.named.any (fun p => decide (p.1 = name)) then
        (st, some .duplicateName)
      else
        ({ resources := st.resources ++ [r],
           named := st.named ++ [(name, r)] }, none)
    else (st, some .invalidName)

/-- Modelled from the spec: `register_resource`, which `add_resource`
calls for dynamic resources, is not among the source files under `src/`
(the source defines only `_reg_resource`); per the spec (§3: resource
names validated at registration time, registration order is match
priority), it registers the resource exactly as `_reg_resource` does. -/
def registerResource (st : DispState) (r : Resource') :
    DispState × Option RegErr :=
  regResource st r

/-- UrlDispatcher.add_resource: reject paths not starting with `/`; with
no brace anywhere in the path, register a `PlainResource`; otherwise
split the template, compile the anchored pattern and formatter, and
register a `DynamicResource`. -/
def addResource (st : DispState) (path : String) (name : Option String) :
    Except AddErr (DispState × Resource') :=
  if ¬ strStartsWith path "/" then .error .pathNoSlash
  else if ¬ path.toList.any (fun c => c = braceL || c = braceR) then
    let r := Resource'.plain path name
    match regResource st r with
    | (st', none) => .ok (st', r)
    | (_, some e) => .error (.regError e)
  else
    match compileParts (splitTemplate path.toList) with
    | .error e => .error e
    | .ok (toks, fmt) =>
      let r := Resource'.dynamic toks (String.mk fmt) name
      match registerResource st r with
      | (st', none) => .ok (st', r)
      | (_, some e) => .error (.regError e)

/-- Outcomes of `UrlDispatcher.resolve`. -/
inductive ResolveResult where
  | methodNotAllowedR (allowed : List String)
  | notFoundR
  | nameErrorR
deriving DecidableEq

/-- Loop of `UrlDispatcher.resolve`: scan the resources in registration
order calling `resource.match(path)`.  At the first successful match the
source executes `route_method = route.method` (line 477) where `route` is
an unbound name — neither assigned in the function nor defined at module
scope — so the call raises `NameError`; this is `nameErrorR`.  The lines
that compare the method, return the match and accumulate
`allowed_methods` are consequently unreachable, and the accumulator stays
empty, so the `for`/`else` clause can only ever report `notFoundR`. -/
def resolveLoop : List Resource' → String → String → List String → ResolveResult
  | [], _, _, allowed =>
    if allowed = [] then .notFoundR else .methodNotAllowedR allowed
  | r :: rest, m, p, allowed =>
    match resourceMatch r p with
    | none => resolveLoop rest m p allowed
    | some _ => .nameErrorR

/-- UrlDispatcher.resolve on a request with the given method and raw
path. -/
def urlResolve (resources : List Resource') (method path : String) :
    ResolveResult :=
  resolveLoop resources method path []

/-! ## Static file route (`StaticRoute`) -/

/-- File-system metadata (`os.stat` and `os.path.isfile`): whether the
path names a regular file, the modification time (`st.st_mtime`,
modelled at integer precision — the source compares the stat float
against `If-Modified-Since.timestamp()`), and the size in bytes. -/
structure FileStat where
  isRegularFile : Bool
  mtime : Int
  size : Nat
deriving DecidableEq

/-- Join of the root directory and the relative filename
(`os.path.join(self._directory, filename)`): `self._directory` is
absolute and separator-terminated (`os.path.abspath(directory) +
os.sep`), and `os.path.join` discards the directory when the second
argument is itself absolute. -/
def pyJoinAbs (directory fname : String) : String :=
  if strStartsWith fname "/" then fname else directory ++ fname

/-- Normalization performed by `os.path.abspath` on an absolute path
(POSIX `normpath`): split on `/`, drop empty and `.` components, let
`..` pop the previous component (or vanish at the root), rejoin.  (The
POSIX double-leading-slash special case is immaterial here.) -/
def normAbsPath (s : String) : String :=
  let comps := (splitChars (fun c => c = '/') s.toList).foldl
    (fun acc c =>
      if c = [] ∨ c = ['.'] then acc
      else if c = ['.', '.'] then acc.dropLast
      else acc ++ [c]) ([] : List (List Char))
  String.mk ('/' :: List.intercalate ['/'] comps)

/-- StaticRoute.match: require the URL prefix, strip it, and return the
remainder as the relative filename (no normalization here). -/
def staticMatch (urlPre : String) (path : String) : Option String :=
  if strStartsWith path urlPre then
    some (String.mk (path.toList.drop urlPre.toList.length))
  else none

/-- Outcomes of `StaticRoute.handle`: `HTTPNotFound`, `HTTPNotModified`
(raised before any response is created, hence with no body bytes), or a
served response whose `Content-Length` is the file size and whose body
streams that many bytes. -/
inductive HandleResult where
  | notFound
  | notModified
  | served (size : Nat)
deriving DecidableEq

/-- Body bytes written for an outcome: only a served response streams the
file. -/
def bodyBytes : HandleResult → Nat
  | .served n => n
  | _ => 0

/-- StaticRoute.handle: resolve the relative filename against the root
(`os.path.abspath(os.path.join(...))`), raise `HTTPNotFound` when the
resolved path escapes the root (`not filepath.startswith(self._directory)`),
when it does not exist, or when it is not a regular file — the same
exception in all three cases; then honor `If-Modified-Since`
(`st.st_mtime <= modsince.timestamp()` raises `HTTPNotModified`), and
otherwise serve the file.  The file system is the explicit parameter
`fsys`. -/
def staticHandle (directory : String) (fsys : String → Option FileStat)
    (filename : String) (ifModifiedSince : Option Int) : HandleResult :=
  let filepath := normAbsPath (pyJoinAbs directory filename)
  if ¬ strStartsWith filepath directory then .notFound
  else
    match fsys filepath with
    | none => .notFound
    | some st =>
      if ¬ st.isRegularFile then .notFound
      else
        match ifModifiedSince with
        | some t => if st.mtime ≤ t then .notModified else .served st.size
        | none => .served st.size

/-- Dynamic resource the dispatcher builds for the template
`/users/{id}`: literal `/users/` followed by the group `(?P<id>[^{}/]+)`,
with formatter `/users/{id}`. -/
def usersIdResource : Resource' :=
  .dynamic [.lit "/users/".toList, .grp "id" goodClass] "/users/\x7bid\x7d" none

/-- Dynamic resource the dispatcher builds for the template
`/users/{id:\d+}`: literal `/users/` followed by the group
`(?P<id>\d+)`; the formatter drops the regex. -/
def usersIdDigitsResource : Resource' :=
  .dynamic [.lit "/users/".toList, .grp "id" .plusDigit] "/users/\x7bid\x7d" none

/-! ## Theorems -/

theorem pwOutput_writeRaw (w : PayloadWriter) (c : List Nat) :
    pwOutput (writeRaw w c) = pwOutput w ++ c := by
  by_cases ht : w.transportAttached <;> by_cases hb : w.buffer = [] <;>
    simp [writeRaw, pwOutput, ht, hb, List.append_assoc]

theorem length_writeRaw (w : PayloadWriter) (c : List Nat) :
    (writeRaw w c).length = w.length := by
  by_cases ht : w.transportAttached <;> by_cases hb : w.buffer = [] <;>
    simp [writeRaw, ht, hb]

theorem eta_length_zero (w : PayloadWriter) (h : w.length = some 0) :
    { w with length := some 0 } = w := by
  cases w
  simp_all

theorem pwOutput_buffer_size (w : PayloadWriter) (n : Nat) :
    pwOutput { w with buffer_size := n } = pwOutput w := rfl

theorem length_buffer_size (w : PayloadWriter) (n : Nat) :
    ({ w with buffer_size := n } : PayloadWriter).length = w.length := rfl

/-- C2: for a `PayloadWriter` with chunking enabled and no compression,
every `write` of a non-empty byte string `b` emits exactly the lowercase
hex length of `b`, CRLF, `b`, CRLF; `write_eof` emits the terminator
`0 CRLF CRLF` (appending it to the wire after any buffered bytes); and
the concrete session writing `b"hi"` then finalizing puts exactly the
bytes `32 0d 0a 68 69 0d 0a 30 0d 0a 0d 0a` (`2\r\nhi\r\n0\r\n\r\n`) on
the wire. -/
theorem c2_chunked_write_framing :
    (∀ (w : PayloadWriter) (b : List Nat) (d : Bool),
        w.chunked = true → w.length = none → b ≠ [] →
        pwOutput ((pwWrite w b d).1) =
          pwOutput w ++ hexBytes b.length ++ crlf ++ b ++ crlf) ∧
    (∀ w : PayloadWriter, w.chunked = true → w.eof = false →
        w.transportAttached = true →
        (writeEof w []).map PayloadWriter.wire =
          some (w.wire ++ w.buffer ++ zeroTerm) ∧
        (writeEof w []).map PayloadWriter.eof = some true) ∧
    (writeEof ((pwWrite (enableChunking (mkWriter true))
          (strBytes "hi") true).1) []).map PayloadWriter.wire =
      some [50, 13, 10, 104, 105, 13, 10, 48, 13, 10, 13, 10] := by
  refine ⟨?_, ?_, ?_⟩
  · intro w b d hch hlen hb
    simp only [pwWrite, hlen, hch, if_true, hb, ite_false]
    split <;>
      simp only [pwOutput_buffer_size] <;>
      rw [pwOutput_writeRaw] <;>
      simp [chunkFrame, List.append_assoc]
  · intro w hch heof htr
    constructor <;>
      simp [writeEof, heof, hch, bufferData, zeroTerm, pwDrain, htr,
        List.append_eq_nil, List.append_assoc]
  · rfl

/-- Witness for the universally quantified parts of
`c2_chunked_write_framing`, at the concrete chunked writer and payload
`b"hi"`. -/
theorem c2_chunked_write_framing_witness :
    pwOutput ((pwWrite (enableChunking (mkWriter true)) (strBytes "hi") true).1) =
      pwOutput (enableChunking (mkWriter true)) ++
        hexBytes (strBytes "hi").length ++ crlf ++ strBytes "hi" ++ crlf :=
  c2_chunked_write_framing.1 (enableChunking (mkWriter true)) (strBytes "hi")
    true rfl rfl (by decide)

/-- C4: for a `PayloadWriter` with a fixed remaining budget `L` and no
compression, a write whose byte count exceeds the budget emits only the
first `L` payload bytes (framed when chunking is on) and zeroes the
budget; once the budget is zero every further write is a no-op returning
the writer unchanged; concretely, budget 3 writing `b"hello"` emits only
`b"hel"` and the following write of `b"lo"` changes nothing. -/
theorem c4_length_clamp :
    (∀ (w : PayloadWriter) (c : List Nat) (d : Bool) (L : Nat),
        w.length = some L → L < c.length → w.chunked = false →
        pwOutput ((pwWrite w c d).1) = pwOutput w ++ c.take L ∧
          ((pwWrite w c d).1).length = some 0) ∧
    (∀ (w : PayloadWriter) (c : List Nat) (d : Bool) (L : Nat),
        w.length = some L → L < c.length → w.chunked = true → 0 < L →
        pwOutput ((pwWrite w c d).1) =
          pwOutput w ++ chunkFrame (c.take L) ∧
          ((pwWrite w c d).1).length = some 0) ∧
    (∀ (w : PayloadWriter) (c : List Nat) (d : Bool),
        w.length = some 0 → pwWrite w c d = (w, false)) ∧
    pwOutput ((pwWrite { mkWriter true with length := some 3 }
        (strBytes "hello") true).1) = strBytes "hel" ∧
    ((pwWrite { mkWriter true with length := some 3 }
        (strBytes "hello") true).1).length = some 0 ∧
    pwWrite ((pwWrite { mkWriter true with length := some 3 }
        (strBytes "hello") true).1) (strBytes "lo") true =
      ((pwWrite { mkWriter true with length := some 3 }
        (strBytes "hello") true).1, false) := by
  have hclamp : ∀ (w : PayloadWriter) (c : List Nat) (d : Bool) (L : Nat),
      w.length = some L → L < c.length →
      pwWrite w c d =
        (let w1 : PayloadWriter := { w with length := some 0 }
         let chunk' := c.take L
         if chunk' = [] then (w1, false)
         else
           let framed := if w1.chunked then chunkFrame chunk' else chunk'
           let w2 := writeRaw w1 framed
           if 64 * 1024 < w2.buffer_size ∧ d then
             ({ w2 with buffer_size := 0 }, true)
           else (w2, false)) := by
    intro w c d L hlen hlt
    have hnle : ¬ (c.length ≤ L) := by omega
    simp only [pwWrite, hlen, hnle, ite_false]
  refine ⟨?_, ?_, ?_, ?_, ?_, ?_⟩
  · intro w c d L hlen hlt hch
    rw [hclamp w c d L hlen hlt]
    by_cases h0 : c.take L = []
    · simp only [h0, if_pos rfl]
      constructor
      · simp [pwOutput, h0]
      · rfl
    · simp only [h0, ite_false, hch, Bool.false_eq_true, if_false]
      constructor
      · split
        · simp only [pwOutput_buffer_size]
          rw [pwOutput_writeRaw]
          simp [pwOutput]
        · rw [pwOutput_writeRaw]
          simp [pwOutput]
      · split
        · simp only [length_buffer_size]
          rw [length_writeRaw]
        · rw [length_writeRaw]
  · intro w c d L hlen hlt hch hL
    rw [hclamp w c d L hlen hlt]
    have h0 : c.take L ≠ [] := by
      have hlen0 : (c.take L).length = L := by
        rw [List.length_take]
        omega
      intro hnil
      rw [hnil] at hlen0
      simp at hlen0
      omega
    simp only [h0, ite_false, hch, if_true]
    constructor
    · split
      · simp only [pwOutput_buffer_size]
        rw [pwOutput_writeRaw]
        simp [pwOutput, hch]
      · rw [pwOutput_writeRaw]
        simp [pwOutput, hch]
    · split
      · simp only [length_buffer_size]
        rw [length_writeRaw]
      · rw [length_writeRaw]
  · intro w c d h
    have heta := eta_length_zero w h
    by_cases hc : c = []
    · subst hc
      simp [pwWrite, h, heta]
    · have hlt : 0 < c.length := List.length_pos.mpr hc
      rw [hclamp w c d 0 h hlt]
      simp [heta]
  · decide
  · decide
  · decide

/-- Witness for `c4_length_clamp`: the budget-3 writer truncating
`b"hello"`, and a budget-0 writer ignoring a write. -/
theorem c4_length_clamp_witness :
    (pwOutput ((pwWrite { mkWriter true with length := some 3 }
        (strBytes "hello") true).1) =
      pwOutput { mkWriter true with length := some 3 } ++
        (strBytes "hello").take 3 ∧
      ((pwWrite { mkWriter true with length := some 3 }
        (strBytes "hello") true).1).length = some 0) ∧
    pwWrite { mkWriter true with length := some 0 } (strBytes "lo") true =
      ({ mkWriter true with length := some 0 }, false) :=
  ⟨c4_length_clamp.1 { mkWriter true with length := some 3 }
      (strBytes "hello") true 3 rfl (by decide) rfl,
   c4_length_clamp.2.2.1 { mkWriter true with length := some 0 }
      (strBytes "lo") true rfl⟩

/-- C6: `write_eof` is idempotent — on an already finalized writer the
call returns immediately with the writer unchanged (no bytes emitted, no
state change); and any completed finalization marks the writer
finalized, drops the transport reference and releases the stream. -/
theorem c6_write_eof_idempotent :
    (∀ (w : PayloadWriter) (c : List Nat), w.eof = true →
        writeEof w c = some w) ∧
    (∀ (w w' : PayloadWriter) (c : List Nat), w.eof = false →
        writeEof w c = some w' →
        w'.eof = true ∧ w'.transportAttached = false ∧ w'.released = true) := by
  constructor
  · intro w c h
    simp [writeEof, h]
  · intro w w' c h heq
    simp only [writeEof, h, Bool.false_eq_true, if_false] at heq
    split at heq
    · exact Option.noConfusion heq
    · obtain rfl := Option.some.inj heq
      exact ⟨rfl, rfl, rfl⟩

/-- Witness for `c6_write_eof_idempotent`: a finalized writer is returned
unchanged, and the first finalization of a fresh writer sets the
finalized, detached and released flags. -/
theorem c6_write_eof_idempotent_witness :
    writeEof { mkWriter true with eof := true } [] =
      some { mkWriter true with eof := true } ∧
    (({ mkWriter true with
          eof := true, transportAttached := false,
          released := true } : PayloadWriter).eof = true ∧
     ({ mkWriter true with
          eof := true, transportAttached := false,
          released := true } : PayloadWriter).transportAttached = false ∧
     ({ mkWriter true with
          eof := true, transportAttached := false,
          released := true } : PayloadWriter).released = true) :=
  ⟨c6_write_eof_idempotent.1 { mkWriter true with eof := true } [] rfl,
   c6_write_eof_idempotent.2 (mkWriter true)
     { mkWriter true with
       eof := true, transportAttached := false,
       released := true } [] rfl (by decide)⟩

/-- C8: resource registration is all-or-nothing — an invalid name (not a
`.`/`:`/`-`-separated sequence of identifier-like tokens, e.g.
`"bad name"`) fails with the invalid-name error and a name already in the
table fails with the duplicate-name error, in both cases returning the
dispatcher state exactly as it was before the call (`_reg_resource`
raises before touching either the resource list or the name table). -/
theorem c8_registration_all_or_nothing :
    (∀ (st : DispState) (r : Resource') (name : String),
        resourceName r = some name →
        ((nameParts name).all validNamePart = false →
            regResource st r = (st, some .invalidName)) ∧
        ((nameParts name).all validNamePart = true →
         st.named.any (fun p => decide (p.1 = name)) = true →
            regResource st r = (st, some .duplicateName))) ∧
    (nameParts "bad name").all validNamePart = false := by
  constructor
  · intro st r name h
    constructor
    · intro hv
      simp [regResource, h, hv]
    · intro hv hd
      simp [regResource, h, hv, hd]
  · decide

/-- Witness for `c8_registration_all_or_nothing`: registering the name
`"bad name"` on a fresh dispatcher, and registering the name `"a"` twice,
both leave the dispatcher state untouched. -/
theorem c8_registration_all_or_nothing_witness :
    regResource emptyDispatcher (.plain "/a" (some "bad name")) =
      (emptyDispatcher, some .invalidName) ∧
    regResource { resources := [.plain "/a" (some "a")],
                  named := [("a", .plain "/a" (some "a"))] }
        (.plain "/b" (some "a")) =
      ({ resources := [.plain "/a" (some "a")],
         named := [("a", .plain "/a" (some "a"))] }, some .duplicateName) :=
  ⟨(c8_registration_all_or_nothing.1 emptyDispatcher
      (.plain "/a" (some "bad name")) "bad name" rfl).1 (by decide),
   (c8_registration_all_or_nothing.1
      { resources := [.plain "/a" (some "a")],
        named := [("a", .plain "/a" (some "a"))] }
      (.plain "/b" (some "a")) "a" rfl).2 (by decide) (by decide)⟩

/-- C5: the static handler returns the single `notFound` value whenever
the resolved path escapes the root directory, or names nothing, or names
something other than a regular file — the three outcomes are the same
error value, indistinguishable to the caller. -/
theorem c5_static_not_found_uniform :
    ∀ (directory : String) (fsys : String → Option FileStat)
      (filename : String) (ims : Option Int),
      (strStartsWith (normAbsPath (pyJoinAbs directory filename)) directory
          = false →
        staticHandle directory fsys filename ims = .notFound) ∧
      (fsys (normAbsPath (pyJoinAbs directory filename)) = none →
        staticHandle directory fsys filename ims = .notFound) ∧
      (∀ st : FileStat,
        fsys (normAbsPath (pyJoinAbs directory filename)) = some st →
        st.isRegularFile = false →
        staticHandle directory fsys filename ims = .notFound) := by
  intro directory fsys filename ims
  refine ⟨?_, ?_, ?_⟩
  · intro h
    simp [staticHandle, h]
  · intro h
    by_cases hs : strStartsWith (normAbsPath (pyJoinAbs directory filename))
        directory = true
    · simp [staticHandle, hs, h]
    · simp [staticHandle, hs]
  · intro st h hreg
    by_cases hs : strStartsWith (normAbsPath (pyJoinAbs directory filename))
        directory = true
    · simp [staticHandle, hs, h, hreg]
    · simp [staticHandle, hs]

/-- Witness for `c5_static_not_found_uniform`: under root `/var/www/`,
the escape attempt `../../etc/passwd` and the genuinely missing
`gone.txt` produce the same `notFound` value. -/
theorem c5_static_not_found_uniform_witness :
    staticHandle "/var/www/"
        (fun p => if p = "/var/www/ok.txt" then some ⟨true, 0, 1⟩ else none)
        "../../etc/passwd" none = .notFound ∧
    staticHandle "/var/www/"
        (fun p => if p = "/var/www/ok.txt" then some ⟨true, 0, 1⟩ else none)
        "gone.txt" none = .notFound :=
  ⟨(c5_static_not_found_uniform "/var/www/"
      (fun p => if p = "/var/www/ok.txt" then some ⟨true, 0, 1⟩ else none)
      "../../etc/passwd" none).1 (by decide),
   (c5_static_not_found_uniform "/var/www/"
      (fun p => if p = "/var/www/ok.txt" then some ⟨true, 0, 1⟩ else none)
      "gone.txt" none).2.1 (by decide)⟩

/-- C7: for a static-file request on a served file, an
`If-Modified-Since` value at or after the file's modification time yields
`notModified` with zero body bytes; a value strictly before it, or no
value at all, serves the body. -/
theorem c7_if_modified_since :
    ∀ (directory : String) (fsys : String → Option FileStat)
      (filename : String) (st : FileStat) (t : Int),
      fsys (normAbsPath (pyJoinAbs directory filename)) = some st →
      st.isRegularFile = true →
      strStartsWith (normAbsPath (pyJoinAbs directory filename)) directory
        = true →
      ((st.mtime ≤ t →
          staticHandle directory fsys filename (some t) = .notModified ∧
          bodyBytes (staticHandle directory fsys filename (some t)) = 0) ∧
       (t < st.mtime →
          staticHandle directory fsys filename (some t) = .served st.size) ∧
       staticHandle directory fsys filename none = .served st.size) := by
  intro directory fsys filename st t hf hreg hs
  refine ⟨?_, ?_, ?_⟩
  · intro hle
    have hnm : staticHandle directory fsys filename (some t) =
        .notModified := by
      simp [staticHandle, hs, hf, hreg, hle]
    exact ⟨hnm, by rw [hnm]; rfl⟩
  · intro hlt
    have hnle : ¬ (st.mtime ≤ t) := not_le.mpr hlt
    simp [staticHandle, hs, hf, hreg, hnle]
  · simp [staticHandle, hs, hf, hreg]

/-- Witness for `c7_if_modified_since`: a file with modification time 100
requested with `If-Modified-Since` 100 responds `notModified` with zero
body bytes. -/
theorem c7_if_modified_since_witness :
    staticHandle "/www/"
        (fun p => if p = "/www/a.txt" then some ⟨true, 100, 5⟩ else none)
        "a.txt" (some 100) = .notModified ∧
    bodyBytes (staticHandle "/www/"
        (fun p => if p = "/www/a.txt" then some ⟨true, 100, 5⟩ else none)
        "a.txt" (some 100)) = 0 :=
  (c7_if_modified_since "/www/"
      (fun p => if p = "/www/a.txt" then some ⟨true, 100, 5⟩ else none)
      "a.txt" ⟨true, 100, 5⟩ 100 (by decide) rfl (by decide)).1 (by decide)

/-- C1 (code defect): the resolution loop of `UrlDispatcher.resolve`
reads the unbound name `route` as soon as any resource matches the path,
so a request whose path is served by a registered resource raises
`NameError` instead of producing the successful-match or
method-not-allowed outcomes the claim describes; only the
no-resource-matches case reaches its `notFound` outcome. -/
theorem c1_resolve_name_error :
    urlResolve [.plain "/foo" none] "GET" "/foo" = .nameErrorR ∧
    urlResolve [.plain "/foo" none] "GET" "/bar" = .notFoundR := by
  constructor <;> rfl

/-- C3: registering the template `/users/{id}` produces a dynamic
resource whose `id` segment uses the default class `[^{}/]+` (no brace,
no slash) in a pattern anchored at both ends; it matches `/users/42`
capturing `id = "42"` and rejects `/users/42/extra`; the template
`/users/{id:\d+}` uses the supplied regex verbatim and its resource
rejects `/users/abc`. -/
theorem c3_dynamic_template :
    addResource emptyDispatcher "/users/\x7bid\x7d" none =
      .ok ({ resources := [usersIdResource], named := [] },
        usersIdResource) ∧
    resourceMatch usersIdResource "/users/42" = some [("id", "42")] ∧
    resourceMatch usersIdResource "/users/42/extra" = none ∧
    addResource emptyDispatcher "/users/\x7bid:\\d+\x7d" none =
      .ok ({ resources := [usersIdDigitsResource], named := [] },
        usersIdDigitsResource) ∧
    resourceMatch usersIdDigitsResource "/users/abc" = none := by
  refine ⟨?_, ?_, ?_, ?_, ?_⟩ <;> rfl

theorem find?_key_eq {K V : Type} [DecidableEq K] (pairs : List (K × V))
    (k : K) (pr : K × V)
    (h : pairs.find? (fun p => decide (p.1 = k)) = some pr) : pr.1 = k := by
  have := List.find?_some h
  simpa using this

theorem find?_of_mem_keys {K V : Type} [DecidableEq K] (pairs : List (K × V))
    (k : K) (h : k ∈ pairs.map Prod.fst) :
    ∃ v, pairs.find? (fun p => decide (p.1 = k)) = some (k, v) := by
  obtain ⟨p, hp, hk⟩ := List.mem_map.mp h
  have hsome : (pairs.find? (fun p => decide (p.1 = k))).isSome := by
    rw [List.find?_isSome]
    exact ⟨p, hp, by simp [hk]⟩
  obtain ⟨pr, hpr⟩ := Option.isSome_iff_exists.mp hsome
  have hkey := find?_key_eq pairs k pr hpr
  refine ⟨pr.2, ?_⟩
  rw [hpr]
  congr 1
  exact Prod.ext_iff.mpr ⟨hkey, rfl⟩

theorem length_filterMap_of_isSome {A B : Type} (f : A → Option B) :
    ∀ l : List A, (∀ a ∈ l, (f a).isSome) →
      (l.filterMap f).length = l.length := by
  intro l
  induction l with
  | nil => intro _; rfl
  | cons a as ih =>
    intro h
    obtain ⟨b, hb⟩ := Option.isSome_iff_exists.mp (h a (List.mem_cons_self a as))
    simp only [List.filterMap_cons, hb, List.length_cons]
    rw [ih (fun x hx => h x (List.mem_cons_of_mem a hx))]

theorem itemsViewUnique_filter_not_mem {K V : Type} [DecidableEq K]
    (pairs : List (K × V)) (k : K) :
    ∀ ord : List K, k ∉ ord →
      (itemsViewUnique ord pairs).filter (fun p => decide (p.1 = k)) = [] := by
  intro ord
  induction ord with
  | nil => intro _; rfl
  | cons a as ih =>
    intro h
    have hak : ¬ (a = k) := fun e => h (by simp [← e])
    have has : k ∉ as := fun e => h (List.mem_cons_of_mem a e)
    simp only [itemsViewUnique, List.filterMap_cons] at ih ⊢
    cases hfa : pairs.find? (fun p => decide (p.1 = a)) with
    | none => exact ih has
    | some pr =>
      have hkey := find?_key_eq pairs a pr hfa
      have hne : ¬ (pr.1 = k) := by rw [hkey]; exact hak
      simp [List.filter_cons, hne, ih has]

theorem itemsViewUnique_filter_mem {K V : Type} [DecidableEq K]
    (pairs : List (K × V)) (k : K) (v : V)
    (hfind : pairs.find? (fun p => decide (p.1 = k)) = some (k, v)) :
    ∀ ord : List K, ord.Nodup → k ∈ ord →
      (itemsViewUnique ord pairs).filter (fun p => decide (p.1 = k)) =
        [(k, v)] := by
  intro ord
  induction ord with
  | nil =>
    intro _ h
    exact absurd h (List.not_mem_nil k)
  | cons a as ih =>
    intro hnd hmem
    obtain ⟨hna, hnd'⟩ := List.nodup_cons.mp hnd
    simp only [itemsViewUnique, List.filterMap_cons]
    rcases List.mem_cons.mp hmem with he | hm
    · subst he
      have hnil := itemsViewUnique_filter_not_mem pairs k as hna
      simp only [itemsViewUnique] at hnil
      simp [hfind, List.filter_cons, hnil]
    · have hak : ¬ (a = k) := fun e => hna (e ▸ hm)
      have hrest := ih hnd' hm
      simp only [itemsViewUnique] at hrest
      cases hfa : pairs.find? (fun p => decide (p.1 = a)) with
      | none => exact hrest
      | some pr =>
        have hkey := find?_key_eq pairs a pr hfa
        have hne : ¬ (pr.1 = k) := by rw [hkey]; exact hak
        simp [List.filter_cons, hne, hrest]

/-- C9: for every inserted pair sequence, the items view with the all
flag returns exactly the inserted pairs in insertion order, duplicates
included; without the all flag (for any enumeration `ord` of the
distinct keys, since Python's `set` fixes no order) it returns exactly
one pair per distinct key — the list has one entry per distinct key and,
for each key, that entry is the first-inserted pair with that key. -/
theorem c9_items_views {K V : Type} [DecidableEq K]
    (pairs : List (K × V)) (ord : List K)
    (hnd : ord.Nodup)
    (hsub : ∀ k ∈ ord, k ∈ pairs.map Prod.fst)
    (hsup : ∀ k ∈ pairs.map Prod.fst, k ∈ ord) :
    itemsViewAll (mdOfPairs pairs) = pairs ∧
    (itemsViewUnique ord (mdOfPairs pairs)).length = ord.length ∧
    ∀ k, k ∈ pairs.map Prod.fst →
      ∃ v, pairs.find? (fun p => decide (p.1 = k)) = some (k, v) ∧
        (itemsViewUnique ord (mdOfPairs pairs)).filter
          (fun p => decide (p.1 = k)) = [(k, v)] := by
  refine ⟨rfl, ?_, ?_⟩
  · simp only [itemsViewUnique, mdOfPairs]
    apply length_filterMap_of_isSome
    intro a ha
    obtain ⟨v, hv⟩ := find?_of_mem_keys pairs a (hsub a ha)
    simp [hv]
  · intro k hk
    obtain ⟨v, hv⟩ := find?_of_mem_keys pairs k hk
    exact ⟨v, hv,
      itemsViewUnique_filter_mem pairs k v hv ord hnd (hsup k hk)⟩

/-- Witness for `c9_items_views` at the pair list
`[(a,1), (b,2), (a,3)]` and key enumeration `[a, b]`. -/
theorem c9_items_views_witness :
    itemsViewAll (mdOfPairs [("a", "1"), ("b", "2"), ("a", "3")]) =
      [("a", "1"), ("b", "2"), ("a", "3")] ∧
    (itemsViewUnique ["a", "b"]
        (mdOfPairs [("a", "1"), ("b", "2"), ("a", "3")])).length =
      (["a", "b"] : List String).length ∧
    ∀ k, k ∈ [("a", "1"), ("b", "2"), ("a", "3")].map Prod.fst →
      ∃ v, [("a", "1"), ("b", "2"), ("a", "3")].find?
          (fun p => decide (p.1 = k)) = some (k, v) ∧
        (itemsViewUnique ["a", "b"]
            (mdOfPairs [("a", "1"), ("b", "2"), ("a", "3")])).filter
          (fun p => decide (p.1 = k)) = [(k, v)] :=
  c9_items_views [("a", "1"), ("b", "2"), ("a", "3")] ["a", "b"]
    (by decide) (by decide) (by decide)

/-- C10: `__setitem__` (replace-by-key) succeeds whether or not the key
is present — the `KeyError` of the internal delete is swallowed — and
always produces the pairs whose key differs, in their original relative
order, with the new pair appended at the end; `getall` afterwards
returns exactly the one-element sequence `[v]`, and the pairs under any
other key are untouched. -/
theorem c10_setitem_replace {K V : Type} [DecidableEq K]
    (items : List (K × V)) (k : K) (v : V) :
    mdSetItem items k v =
      items.filter (fun p => decide (¬ p.1 = k)) ++ [(k, v)] ∧
    mdGetAll (mdSetItem items k v) k none = .ok [v] ∧
    ∀ k', k' ≠ k →
      (mdSetItem items k v).filter (fun p => decide (p.1 = k')) =
        items.filter (fun p => decide (p.1 = k')) := by
  have h1 : mdSetItem items k v =
      items.filter (fun p => decide (¬ p.1 = k)) ++ [(k, v)] := by
    unfold mdSetItem mdDelItem
    by_cases h : items.any (fun p => decide (p.1 = k)) = true
    · simp [h]
    · rw [if_neg h]
      have hself : items.filter (fun p => decide (¬ p.1 = k)) = items := by
        apply List.filter_eq_self.mpr
        intro a ha
        simp only [decide_eq_true_eq]
        intro he
        apply h
        rw [List.any_eq_true]
        exact ⟨a, ha, by simp [he]⟩
      rw [hself]
  have hnil : (items.filter (fun p => decide (¬ p.1 = k))).filter
      (fun p => decide (p.1 = k)) = [] := by
    rw [List.filter_filter]
    apply List.filter_eq_nil_iff.mpr
    intro a ha
    simp
  refine ⟨h1, ?_, ?_⟩
  · rw [h1]
    unfold mdGetAll
    rw [List.filter_append, hnil]
    simp
  · intro k' hk
    rw [h1, List.filter_append]
    have hsingle : ([(k, v)].filter (fun p => decide (p.1 = k'))) = [] := by
      simp [List.filter_cons]
      exact fun e => hk e.symm
    rw [hsingle, List.append_nil, List.filter_filter]
    apply List.filter_congr
    intro a _
    by_cases ha : a.1 = k'
    · have hne : ¬ (a.1 = k) := by
        rw [ha]
        exact hk
      simp only [ha]
      simp [hne]
      exact hk
    · simp [ha]

/-- Witness for `c10_setitem_replace` at the pair list
`[(a,1), (b,2), (a,3)]`, setting key `a` to `9` and checking key `b` is
untouched. -/
theorem c10_setitem_replace_witness :
    mdSetItem [("a", "1"), ("b", "2"), ("a", "3")] "a" "9" =
      [("a", "1"), ("b", "2"), ("a", "3")].filter
        (fun p => decide (¬ p.1 = "a")) ++ [("a", "9")] ∧
    mdGetAll (mdSetItem [("a", "1"), ("b", "2"), ("a", "3")] "a" "9")
      "a" none = .ok ["9"] ∧
    (mdSetItem [("a", "1"), ("b", "2"), ("a", "3")] "a" "9").filter
        (fun p => decide (p.1 = "b")) =
      [("a", "1"), ("b", "2"), ("a", "3")].filter
        (fun p => decide (p.1 = "b")) :=
  ⟨(c10_setitem_replace [("a", "1"), ("b", "2"), ("a", "3")] "a" "9").1,
   (c10_setitem_replace [("a", "1"), ("b", "2"), ("a", "3")] "a" "9").2.1,
   (c10_setitem_replace [("a", "1"), ("b", "2"), ("a", "3")] "a" "9").2.2
     "b" (by decide)⟩

end AioSpec
